import Mathlib

/-!
Verification development for the automation core of the repository:
the rate limiter (stealth/ratelimit.go), the scheduler
(humanize/scheduler.go), and the workflow checkpoint manager
(persistence store + resumption manager).

Conventions of the embedding:
* `time.Time` and `time.Duration` are modelled as `Int` seconds
  (Go durations such as `24 * time.Hour` become `86400`).
* Go maps keyed by `ActionType` (a string type) are modelled as total
  functions `String → β` returning the Go zero value on absent keys,
  except where the source uses the two-value lookup form, which is
  modelled with `Option`.
* `time.Now()` is passed explicitly as a `now : Int` parameter.
* File persistence (`saveStateUnlocked`, `loadState`) and log output are
  I/O and are not part of the modelled state transitions.
-/

/-- Embedding of `RateLimitConfig` (stealth/ratelimit.go).  All fields are
Go `int`s; `cooldownDuration` is in minutes, `burstCooldown` in seconds,
exactly as in the source. -/
structure RateLimitConfig where
  dailyLimit : Int
  hourlyLimit : Int
  minIntervalSeconds : Int
  maxIntervalSeconds : Int
  cooldownThreshold : Int
  cooldownDuration : Int
  burstLimit : Int
  burstCooldown : Int
deriving DecidableEq, Repr

/-- Embedding of `ActionRecord`: an immutable (timestamp, action type)
pair. -/
structure ActionRecord where
  timestamp : Int
  type : String
deriving DecidableEq, Repr

/-- Embedding of the mutable state of `RateLimiter`
(stealth/ratelimit.go).  The `stateFile` field and the mutex are not
modelled; the maps are total functions with the Go zero value as
default. -/
structure RateLimiter where
  limits : String → Option RateLimitConfig
  actions : List ActionRecord
  lastAction : String → Option Int
  burstCount : String → Int
  burstStart : String → Option Int
  inCooldown : String → Bool
  cooldownEnd : String → Int

/-- Point update of a string-keyed map modelled as a function. -/
def updFn {β : Type} (f : String → β) (k : String) (v : β) : String → β :=
  fun x => if x = k then v else f x

/-- `countActionsSince`: number of recorded actions of type `a` whose
timestamp is strictly after `since` (Go `Timestamp.After(since)`).
Returned as `Int` because the source compares it with `int` limits. -/
def countActionsSince (l : List ActionRecord) (a : String) (since : Int) : Int :=
  ((l.filter (fun r => r.type = a ∧ since < r.timestamp)).length : Int)

/-- `pruneOldActions`: keep only records strictly younger than 24 hours
(`record.Timestamp.After(cutoff)` with `cutoff = now - 24h`). -/
def pruneOldActions (now : Int) (l : List ActionRecord) : List ActionRecord :=
  l.filter (fun r => now - 86400 < r.timestamp)

/-- The active-cooldown test of `CanPerform`:
`rl.inCooldown[action] && now.Before(rl.cooldownEnd[action])`. -/
def activeCooldown (rl : RateLimiter) (a : String) (now : Int) : Prop :=
  rl.inCooldown a = true ∧ now < rl.cooldownEnd a

instance (rl : RateLimiter) (a : String) (now : Int) :
    Decidable (activeCooldown rl a now) := by
  unfold activeCooldown; infer_instance

/-- The expired-cooldown clearing step of `CanPerform`: if
`rl.inCooldown[action] && now.After(rl.cooldownEnd[action])`, set
`inCooldown[action] = false` and `burstCount[action] = 0`. -/
def clearIfExpired (rl : RateLimiter) (a : String) (now : Int) : RateLimiter :=
  if rl.inCooldown a = true ∧ rl.cooldownEnd a < now then
    { rl with inCooldown := updFn rl.inCooldown a false
            , burstCount := updFn rl.burstCount a 0 }
  else rl

/-- The branch of the deny decision taken by `CanPerform`; each
constructor corresponds to one of the source's `fmt.Sprintf` reason
strings, carrying the numbers that the source interpolates. -/
inductive DenyReason where
  | inCooldownRemaining (remaining : Int)
  | dailyLimitReached (count limit : Int)
  | hourlyLimitReached (count limit : Int)
  | tooSoon (wait : Int)
deriving DecidableEq, Repr

/-- Result of `CanPerform`: the returned pair plus the (possibly
mutated) limiter, since clearing an expired cooldown is a side effect of
the check. -/
structure CanPerformResult where
  allowed : Bool
  reason : Option DenyReason
  state : RateLimiter

/-- Embedding of `RateLimiter.CanPerform` (stealth/ratelimit.go
443-493): no configuration allows; an active cooldown denies; an
expired cooldown is cleared (resetting the burst count) as a side
effect; then the trailing-24h daily count, the trailing-1h hourly
count and the minimum spacing are checked in that order. -/
def canPerform (rl : RateLimiter) (a : String) (now : Int) : CanPerformResult :=
  match rl.limits a with
  | none => ⟨true, none, rl⟩
  | some cfg =>
    if activeCooldown rl a now then
      ⟨false, some (DenyReason.inCooldownRemaining (rl.cooldownEnd a - now)), rl⟩
    else
      let s := clearIfExpired rl a now
      let dailyCount := countActionsSince s.actions a (now - 86400)
      if dailyCount ≥ cfg.dailyLimit then
        ⟨false, some (DenyReason.dailyLimitReached dailyCount cfg.dailyLimit), s⟩
      else
        let hourlyCount := countActionsSince s.actions a (now - 3600)
        if hourlyCount ≥ cfg.hourlyLimit then
          ⟨false, some (DenyReason.hourlyLimitReached hourlyCount cfg.hourlyLimit), s⟩
        else
          match s.lastAction a with
          | some lastTime =>
            if now - lastTime < cfg.minIntervalSeconds then
              ⟨false, some (DenyReason.tooSoon (cfg.minIntervalSeconds - (now - lastTime))), s⟩
            else ⟨true, none, s⟩
          | none => ⟨true, none, s⟩

/-- The burst count after the burst-window-expiry reset performed at the
top of `RecordAction`: if a burst window was started more than
`BurstCooldown` seconds ago the count is reset to 0. -/
def burstCountAfterReset (rl : RateLimiter) (a : String) (now : Int)
    (cfg : RateLimitConfig) : Int :=
  match rl.burstStart a with
  | some bs => if now - bs > cfg.burstCooldown then 0 else rl.burstCount a
  | none => rl.burstCount a

/-- Embedding of `RateLimiter.RecordAction` (stealth/ratelimit.go
496-551).  The record is appended and `lastAction` updated
unconditionally; with no configuration the function returns early
(before burst tracking and pruning).  Otherwise the burst count is
(possibly reset and) incremented, the burst trigger may start a
cooldown of `burstCooldown` seconds, the threshold trigger (guarded by
`!inCooldown`) may start a cooldown of `cooldownDuration` minutes, and
the ledger is pruned to 24 hours.  Reads of fields that the earlier
steps of the function leave untouched (`limits`, `burstStart`,
`burstCount`, and the action list as of the append) are written against
the state that last set them; the values are identical to the source's
in-place reads. -/
def recordAction (rl : RateLimiter) (a : String) (now : Int) : RateLimiter :=
  let rl1 : RateLimiter :=
    { rl with actions := rl.actions ++ [⟨now, a⟩]
            , lastAction := updFn rl.lastAction a (some now) }
  match rl.limits a with
  | none => rl1
  | some cfg =>
    let bc := burstCountAfterReset rl a now cfg + 1
    let rl2 : RateLimiter :=
      { rl1 with
        burstStart := if burstCountAfterReset rl a now cfg = 0 then
            updFn rl.burstStart a (some now) else rl.burstStart
        , burstCount := updFn rl.burstCount a bc }
    let rl3 : RateLimiter :=
      if bc ≥ cfg.burstLimit then
        { rl2 with inCooldown := updFn rl2.inCooldown a true
                 , cooldownEnd := updFn rl2.cooldownEnd a (now + cfg.burstCooldown) }
      else rl2
    let recentCount := countActionsSince rl1.actions a (now - 3600)
    let rl4 : RateLimiter :=
      if recentCount ≥ cfg.cooldownThreshold ∧ rl3.inCooldown a = false then
        { rl3 with inCooldown := updFn rl3.inCooldown a true
                 , cooldownEnd := updFn rl3.cooldownEnd a (now + cfg.cooldownDuration * 60) }
      else rl3
    { rl4 with actions := pruneOldActions now rl1.actions }

/-- Folding `recordAction` over a list of call times. -/
def recordMany (rl : RateLimiter) (a : String) (ts : List Int) : RateLimiter :=
  ts.foldl (fun r t => recordAction r a t) rl

/-- Embedding of `RateLimiter.getWaitTime` (stealth/ratelimit.go
689-716): remaining cooldown plus one second, else remaining minimum
interval plus one second, else the default `MinIntervalSeconds`. -/
def getWaitTime (rl : RateLimiter) (a : String) (now : Int) : Int :=
  match rl.limits a with
  | none => 5
  | some cfg =>
    if activeCooldown rl a now then
      rl.cooldownEnd a - now + 1
    else
      match rl.lastAction a with
      | some lastTime =>
        if now - lastTime < cfg.minIntervalSeconds then
          cfg.minIntervalSeconds - (now - lastTime) + 1
        else cfg.minIntervalSeconds
      | none => cfg.minIntervalSeconds

/-- Embedding of the `RateLimiter.WaitForAction` loop (stealth/ratelimit.go
554-571) with explicit fuel (number of loop iterations) and explicit
time: a sleep of `w` seconds is modelled by re-entering the loop at
`now + w`.  `none` means the fuel ran out with the loop still running;
`some true` / `some false` are the source's return values, `false`
being returned exactly when the computed wait exceeds 30 minutes
(1800 seconds). -/
def waitForActionFuel (a : String) : Nat → RateLimiter → Int → Option Bool
  | 0, _, _ => none
  | Nat.succ fuel, rl, now =>
    let r := canPerform rl a now
    if r.allowed then some true
    else
      let w := getWaitTime r.state a now
      if w > 1800 then some false
      else waitForActionFuel a fuel r.state (now + w)

/-- A fresh limiter as built by `NewRateLimiterWithConfig` (the
persisted-state load is I/O and not modelled). -/
def newRateLimiter (limits : String → Option RateLimitConfig) : RateLimiter :=
  { limits := limits
  , actions := []
  , lastAction := fun _ => none
  , burstCount := fun _ => 0
  , burstStart := fun _ => none
  , inCooldown := fun _ => false
  , cooldownEnd := fun _ => 0 }

/-!
## Scheduler (humanize/scheduler.go)

`time.Now()` is modelled by a `GoTime` value carrying the views of the
current instant that the scheduler reads: the absolute second, the
weekday (0 = Sunday … 6 = Saturday), the day of the year, and the
second of today's midnight.  The `rand` draws of `initDay` are passed
explicitly as a `DayRand` (the raw `rand.Intn` results).
-/

/-- The views of the current instant used by the scheduler. -/
structure GoTime where
  t : Int
  weekday : Nat
  yearDay : Int
  midnight : Int
deriving DecidableEq, Repr

/-- The raw `rand.Intn` results drawn by `initDay`, in source order:
`rand.Intn(StartVariation*2+1)`, `rand.Intn(EndVariation*2+1)`,
`rand.Intn(31)`, `rand.Intn(LunchDurationMax-LunchDurationMin+1)`. -/
structure DayRand where
  startDraw : Int
  endDraw : Int
  lunchDraw : Int
  lunchLenDraw : Int
deriving DecidableEq, Repr

/-- Embedding of `ScheduleConfig` (humanize/scheduler.go).  The
float-valued `ShortBreakChance` field and the short-break/burst fields
are consumed only by the probabilistic break machinery, which is not
modelled here. -/
structure ScheduleConfig where
  workStartHour : Int
  workEndHour : Int
  startVariation : Int
  endVariation : Int
  workDays : List Nat
  lunchStartHour : Int
  lunchDurationMin : Int
  lunchDurationMax : Int
deriving DecidableEq, Repr

/-- Embedding of the daily state of `Scheduler` (humanize/scheduler.go).
`initDone` models the source's boolean field recording that `initDay`
has run; the burst-tracking fields are not needed by the modelled
operations. -/
structure SchedulerState where
  config : ScheduleConfig
  todayStart : Int
  todayEnd : Int
  todayLunch : Int
  lunchDuration : Int
  currentDay : Int
  initDone : Bool
deriving DecidableEq, Repr

/-- Embedding of `Scheduler.initDay`: today's window and lunch with the
day's random variation applied (times in seconds, variations in
minutes as in the source). -/
def initDay (cfg : ScheduleConfig) (now : GoTime) (r : DayRand) : SchedulerState :=
  let startVariation := r.startDraw - cfg.startVariation
  let endVariation := r.endDraw - cfg.endVariation
  let lunchVariation := r.lunchDraw - 15
  let lunchMins := cfg.lunchDurationMin + r.lunchLenDraw
  { config := cfg
  , todayStart := now.midnight + cfg.workStartHour * 3600 + startVariation * 60
  , todayEnd := now.midnight + cfg.workEndHour * 3600 + endVariation * 60
  , todayLunch := now.midnight + cfg.lunchStartHour * 3600 + lunchVariation * 60
  , lunchDuration := lunchMins * 60
  , currentDay := now.yearDay
  , initDone := true }

/-- Embedding of `Scheduler.refreshIfNewDay`. -/
def refreshIfNewDay (s : SchedulerState) (now : GoTime) (r : DayRand) : SchedulerState :=
  if now.yearDay ≠ s.currentDay ∨ s.initDone = false then initDay s.config now r else s

/-- Embedding of `Scheduler.IsWorkDay`: today's weekday is in the
configured set. -/
def isWorkDay (s : SchedulerState) (now : GoTime) : Bool :=
  s.config.workDays.contains now.weekday

/-- Embedding of `Scheduler.IsWorkHours`: refreshes the daily state,
requires a work day, then `now.After(todayStart) && now.Before(todayEnd)`.
Returns the refreshed state alongside the answer. -/
def isWorkHours (s : SchedulerState) (now : GoTime) (r : DayRand) : Bool × SchedulerState :=
  let s1 := refreshIfNewDay s now r
  if isWorkDay s1 now = false then (false, s1)
  else (decide (s1.todayStart < now.t ∧ now.t < s1.todayEnd), s1)

/-- Embedding of `Scheduler.IsLunchTime`: refreshes the daily state,
then `now.After(todayLunch) && now.Before(lunchEnd)`. -/
def isLunchTime (s : SchedulerState) (now : GoTime) (r : DayRand) : Bool × SchedulerState :=
  let s1 := refreshIfNewDay s now r
  (decide (s1.todayLunch < now.t ∧ now.t < s1.todayLunch + s1.lunchDuration), s1)

/-- Embedding of `Scheduler.CanOperate`:
`s.IsWorkHours() && !s.IsLunchTime()`, with Go's short-circuit (the
lunch check only runs when the work-hours check succeeded). -/
def canOperate (s : SchedulerState) (now : GoTime) (r : DayRand) : Bool × SchedulerState :=
  let wh := isWorkHours s now r
  if wh.1 then
    let l := isLunchTime wh.2 now r
    (!l.1, l.2)
  else (false, wh.2)

/-!
## Workflow checkpoint manager (persistence store + resumption manager)

The `workflow_state` table is modelled as a `List WorkflowState` of
rows; a SQL `UPDATE … WHERE id = ?` maps every row with a matching id.
`CURRENT_TIMESTAMP` is passed explicitly as `now`.
-/

/-- Embedding of `WorkflowState` (the persistence package).  The opaque
`Metadata map[string]interface{}` bag is not modelled (none of the
verified operations inspects it). -/
structure WorkflowState where
  id : Int
  workflowType : String
  status : String
  currentStep : String
  currentIndex : Int
  totalItems : Int
  startedAt : Int
  pausedAt : Option Int
  completedAt : Option Int
  errorMessage : String
deriving DecidableEq, Repr

/-- Embedding of `Store.PauseWorkflow`:
`UPDATE workflow_state SET status = paused, paused_at = CURRENT_TIMESTAMP WHERE id = ?`. -/
def pauseWorkflow (db : List WorkflowState) (id now : Int) : List WorkflowState :=
  db.map fun w => if w.id = id then
    { w with status := "paused", pausedAt := some now } else w

/-- Embedding of `Store.CompleteWorkflow`:
`UPDATE … SET status = completed, completed_at = CURRENT_TIMESTAMP WHERE id = ?`. -/
def completeWorkflow (db : List WorkflowState) (id now : Int) : List WorkflowState :=
  db.map fun w => if w.id = id then
    { w with status := "completed", completedAt := some now } else w

/-- Embedding of `Store.FailWorkflow`:
`UPDATE … SET status = failed, error_message = ?, completed_at = CURRENT_TIMESTAMP WHERE id = ?`. -/
def failWorkflow (db : List WorkflowState) (id : Int) (errMsg : String) (now : Int) :
    List WorkflowState :=
  db.map fun w => if w.id = id then
    { w with status := "failed", errorMessage := errMsg, completedAt := some now } else w

/-- Embedding of `Store.UpdateWorkflowProgress`:
`UPDATE … SET current_index = ?, current_step = ? WHERE id = ?`
(the status column is not touched). -/
def updateWorkflowProgress (db : List WorkflowState) (id : Int) (currentIndex : Int)
    (currentStep : String) : List WorkflowState :=
  db.map fun w => if w.id = id then
    { w with currentIndex := currentIndex, currentStep := currentStep } else w

/-- Embedding of `Store.SaveWorkflowState`.  Zero `startedAt` and empty
status are defaulted; `id = 0` inserts a fresh row (whose `paused_at`
and `completed_at` columns are not in the INSERT list, hence NULL),
any other id updates the columns in the SET list of the UPDATE.
Returns the new table and the state as mutated in memory (`newId`
plays `LastInsertId`). -/
def saveWorkflowState (db : List WorkflowState) (st : WorkflowState) (now newId : Int) :
    List WorkflowState × WorkflowState :=
  let st1 := if st.startedAt = 0 then { st with startedAt := now } else st
  let st2 := if st1.status = "" then { st1 with status := "in_progress" } else st1
  if st2.id = 0 then
    let st3 := { st2 with id := newId }
    (db ++ [{ st3 with pausedAt := none, completedAt := none }], st3)
  else
    (db.map fun w => if w.id = st2.id then
      { w with status := st2.status, currentStep := st2.currentStep
             , currentIndex := st2.currentIndex, totalItems := st2.totalItems
             , pausedAt := st2.pausedAt, completedAt := st2.completedAt
             , errorMessage := st2.errorMessage } else w, st2)

/-- Embedding of `Store.GetActiveWorkflow`: the row of the given type
with status in {in_progress, paused} that is most recent by
`started_at` (the source's `ORDER BY started_at DESC LIMIT 1`; among
equal `started_at` values this model keeps the earlier row). -/
def getActiveWorkflow (db : List WorkflowState) (t : String) : Option WorkflowState :=
  (db.filter fun w => w.workflowType = t ∧
      (w.status = "in_progress" ∨ w.status = "paused")).foldl
    (fun acc w => match acc with
      | none => some w
      | some b => if w.startedAt > b.startedAt then some w else some b) none

/-- Embedding of `ResumptionManager` (persistence): the store handle
(modelled by the table it reaches), the ids of the tracked active
workflows, and the number of registered shutdown handlers (the
handlers' bodies are opaque). -/
structure ResumptionManager where
  store : List WorkflowState
  activeWorkflows : List Int
  shutdownHandlers : Nat

/-- The workflow type constants iterated by the resumption manager. -/
def workflowTypeList : List String := ["search", "connect", "message"]

/-- Embedding of `ResumptionManager.ResumeWorkflow`'s loop over the
workflow types: the first type whose active workflow carries the
requested id has that workflow set to in_progress and saved. -/
def resumeWorkflowLoop (db : List WorkflowState) (workflowID now newId : Int) :
    List String → Option (List WorkflowState × WorkflowState)
  | [] => none
  | t :: rest =>
    match getActiveWorkflow db t with
    | some st =>
      if st.id = workflowID then
        some (saveWorkflowState db { st with status := "in_progress" } now newId)
      else resumeWorkflowLoop db workflowID now newId rest
    | none => resumeWorkflowLoop db workflowID now newId rest

/-- Embedding of `ResumptionManager.ResumeWorkflow`. -/
def resumeWorkflow (rm : ResumptionManager) (workflowID now newId : Int) :
    Option (List WorkflowState × WorkflowState) :=
  resumeWorkflowLoop rm.store workflowID now newId workflowTypeList

/-- Embedding of `ResumptionManager.PauseAllWorkflows`: pause every
tracked workflow in the store, then clear the tracking map. -/
def pauseAllWorkflows (rm : ResumptionManager) (now : Int) : ResumptionManager :=
  { rm with
    store := rm.activeWorkflows.foldl (fun db id => pauseWorkflow db id now) rm.store
  , activeWorkflows := [] }

/-- One observable event on the shutdown-signal path. -/
inductive ShutdownEvent where
  | pausedWorkflow (id : Int)
  | ranHandler (i : Nat)
  | exitProcess
deriving DecidableEq, Repr

/-- The sequence of events performed by the signal-handling goroutine of
`ResumptionManager.setupSignalHandling` once a SIGINT/SIGTERM arrives:
`PauseAllWorkflows`, then each registered shutdown handler in order,
then `os.Exit(0)`. -/
def shutdownTrace (rm : ResumptionManager) : List ShutdownEvent :=
  rm.activeWorkflows.map ShutdownEvent.pausedWorkflow
    ++ (List.range rm.shutdownHandlers).map ShutdownEvent.ranHandler
    ++ [ShutdownEvent.exitProcess]

/-- The store as persisted by the signal path before the process exits. -/
def shutdownStore (rm : ResumptionManager) (now : Int) : List WorkflowState :=
  (pauseAllWorkflows rm now).store

/-!
## Concrete instances

Configurations and limiter states used by the example scenarios of the
spec and by the witnesses.  Fields of `RateLimitConfig` read in order:
dailyLimit, hourlyLimit, minIntervalSeconds, maxIntervalSeconds,
cooldownThreshold, cooldownDuration (minutes), burstLimit,
burstCooldown (seconds).
-/

/-- A limits table configuring only the "connection" action type. -/
def limitsFor (cfg : RateLimitConfig) : String → Option RateLimitConfig :=
  fun x => if x = "connection" then some cfg else none

/-- The spec's example scenario: dailyLimit 3, burstLimit 2,
burstCooldownSeconds 60 (hourly limit and threshold high enough not to
interfere). -/
def cfgScenario : RateLimitConfig := ⟨3, 10, 0, 10, 10, 5, 2, 60⟩

/-- The limiter after recording 2 actions 1 second apart (at times 0
and 1) under `cfgScenario`. -/
def rlScenario : RateLimiter :=
  recordAction (recordAction (newRateLimiter (limitsFor cfgScenario)) "connection" 0)
    "connection" 1

/-- A configuration whose burst trigger (burstLimit 2, burstCooldown
60s) and threshold trigger (cooldownThreshold 2, cooldownDuration 5
min) both fire on the second recorded action. -/
def cfgBothTriggers : RateLimitConfig := ⟨100, 100, 0, 10, 2, 5, 2, 60⟩

/-- One action recorded at time 0 under `cfgBothTriggers`. -/
def rlOneAction : RateLimiter :=
  recordAction (newRateLimiter (limitsFor cfgBothTriggers)) "connection" 0

/-- A second action at time 1: the burst count reaches burstLimit = 2
and the trailing-hour count reaches cooldownThreshold = 2 in the same
call. -/
def rlBothTriggers : RateLimiter := recordAction rlOneAction "connection" 1

/-- dailyLimit 1 with burstLimit 1: the single recorded action already
starts a burst cooldown. -/
def cfgTightDaily : RateLimitConfig := ⟨1, 100, 0, 10, 100, 5, 1, 100⟩

/-- One action recorded at time 0 under `cfgTightDaily`. -/
def rlTightDaily : RateLimiter :=
  recordAction (newRateLimiter (limitsFor cfgTightDaily)) "connection" 0

/-- burstLimit 3 with all quota limits out of the way; used for the
cooldown-clearing scenario. -/
def cfgReburst : RateLimitConfig := ⟨100, 100, 0, 10, 100, 5, 3, 60⟩

/-- Three actions at times 0, 1, 2 under `cfgReburst`: the third one
starts a burst cooldown until 62. -/
def rlAfterBurst : RateLimiter :=
  recordAction (recordAction (recordAction (newRateLimiter (limitsFor cfgReburst))
    "connection" 0) "connection" 1) "connection" 2

/-- The limiter after a `CanPerform` check at time 63 (past the
cooldown end 62) has cleared the expired cooldown. -/
def rlCleared : RateLimiter := (canPerform rlAfterBurst "connection" 63).state

/-- dailyLimit 2 with bursts out of the way; used to show RecordAction
does not check admission. -/
def cfgNoAdmission : RateLimitConfig := ⟨2, 100, 0, 10, 100, 5, 100, 60⟩

/-- Two actions at times 0 and 1 under `cfgNoAdmission`: the daily
limit 2 is now used up. -/
def rlAtDailyLimit : RateLimiter :=
  recordAction (recordAction (newRateLimiter (limitsFor cfgNoAdmission)) "connection" 0)
    "connection" 1

/-- dailyLimit 0 with minIntervalSeconds 5: `CanPerform` denies at
every recheck and the computed wait is always 5 seconds. -/
def cfgZeroDaily : RateLimitConfig := ⟨0, 100, 5, 10, 100, 5, 100, 60⟩

/-- A fresh limiter under `cfgZeroDaily`. -/
def rlZeroDaily : RateLimiter := newRateLimiter (limitsFor cfgZeroDaily)

/-- A fresh limiter whose daily and hourly counts (0) are below its
limits (3 each). -/
def cfgRoomy : RateLimitConfig := ⟨3, 3, 5, 10, 100, 5, 100, 60⟩

/-- The `WaitForAction` loop never returns on this limiter and action
type, whatever the fuel and the start time: the loop body neither
returns true nor gives up with false. -/
def loopsForever (rl : RateLimiter) (a : String) : Prop :=
  ∀ (fuel : Nat) (now : Int), waitForActionFuel a fuel rl now = none

/-- A workflow table holding one Completed workflow (id 1). -/
def dbCompleted : List WorkflowState :=
  [⟨1, "search", "completed", "done", 5, 5, 100, none, some 200, ""⟩]

/-- A resumption manager tracking one InProgress workflow (id 1), with
two registered shutdown handlers. -/
def rmExample : ResumptionManager :=
  ⟨[⟨1, "search", "in_progress", "step", 3, 10, 100, none, none, ""⟩], [1], 2⟩

/-!
## Helper lemmas
-/

theorem refreshIfNewDay_idem (s : SchedulerState) (now : GoTime) (r : DayRand) :
    refreshIfNewDay (refreshIfNewDay s now r) now r = refreshIfNewDay s now r := by
  by_cases h : now.yearDay ≠ s.currentDay ∨ s.initDone = false
  · have h1 : refreshIfNewDay s now r = initDay s.config now r := by
      rw [refreshIfNewDay, if_pos h]
    have h2 : ¬(now.yearDay ≠ (initDay s.config now r).currentDay ∨
        (initDay s.config now r).initDone = false) := by
      simp [initDay]
    rw [h1, refreshIfNewDay, if_neg h2]
  · have h1 : refreshIfNewDay s now r = s := by
      rw [refreshIfNewDay, if_neg h]
    rw [h1]
    exact h1

theorem refreshIfNewDay_config (s : SchedulerState) (now : GoTime) (r : DayRand) :
    (refreshIfNewDay s now r).config = s.config := by
  rw [refreshIfNewDay]
  split <;> simp [initDay]

theorem isWorkDay_refresh (s : SchedulerState) (now : GoTime) (r : DayRand) :
    isWorkDay (refreshIfNewDay s now r) now = isWorkDay s now := by
  rw [isWorkDay, isWorkDay, refreshIfNewDay_config]

/-- C9: at a fixed instant (one `GoTime` view, one batch of daily random
draws), `CanOperate` returns true exactly when `IsWorkHours` and
`IsWorkDay` hold and `IsLunchTime` does not: the weekday check is
applied even though the source writes `CanOperate` as the two-term
conjunction `IsWorkHours() && !IsLunchTime()`, because `IsWorkHours`
itself returns false on a non-work day. -/
theorem canOperate_iff_workHours_workDay_notLunch
    (s : SchedulerState) (now : GoTime) (r : DayRand) :
    (canOperate s now r).1 =
      ((isWorkHours s now r).1 && isWorkDay s now && !(isLunchTime s now r).1) := by
  have hlunch : (isLunchTime (refreshIfNewDay s now r) now r).1 = (isLunchTime s now r).1 := by
    rw [isLunchTime, isLunchTime, refreshIfNewDay_idem]
  have hwd' : isWorkDay (refreshIfNewDay s now r) now = isWorkDay s now :=
    isWorkDay_refresh s now r
  simp only [canOperate, isWorkHours, hwd']
  by_cases hwd : isWorkDay s now = false
  · simp [hwd]
  · have hwdT : isWorkDay s now = true := by
      revert hwd; cases isWorkDay s now <;> simp
    simp only [hwdT]
    by_cases hwin : (refreshIfNewDay s now r).todayStart < now.t ∧
        now.t < (refreshIfNewDay s now r).todayEnd
    · simp [hwin, hlunch]
    · simp [hwin]

theorem countActionsSince_pruneOldActions (l : List ActionRecord) (a : String)
    (t since : Int) (h : t - 86400 ≤ since) :
    countActionsSince (pruneOldActions t l) a since = countActionsSince l a since := by
  rw [countActionsSince, countActionsSince, pruneOldActions, List.filter_filter]
  congr 2
  apply List.filter_congr
  intro r _
  by_cases hp : r.type = a ∧ since < r.timestamp
  · have hq : t - 86400 < r.timestamp := by omega
    simp [hp, hq]
  · simp [hp]

theorem clearIfExpired_actions (rl : RateLimiter) (a : String) (now : Int) :
    (clearIfExpired rl a now).actions = rl.actions := by
  rw [clearIfExpired]; split <;> rfl

theorem clearIfExpired_lastAction (rl : RateLimiter) (a : String) (now : Int) :
    (clearIfExpired rl a now).lastAction = rl.lastAction := by
  rw [clearIfExpired]; split <;> rfl

theorem clearIfExpired_cooldownEnd (rl : RateLimiter) (a : String) (now : Int) :
    (clearIfExpired rl a now).cooldownEnd = rl.cooldownEnd := by
  rw [clearIfExpired]; split <;> rfl

theorem clearIfExpired_limits (rl : RateLimiter) (a : String) (now : Int) :
    (clearIfExpired rl a now).limits = rl.limits := by
  rw [clearIfExpired]; split <;> rfl

theorem clearIfExpired_clears (rl : RateLimiter) (a : String) (now : Int)
    (h1 : rl.inCooldown a = true) (h2 : rl.cooldownEnd a < now) :
    (clearIfExpired rl a now).inCooldown a = false ∧
      (clearIfExpired rl a now).burstCount a = 0 := by
  rw [clearIfExpired, if_pos ⟨h1, h2⟩]
  simp [updFn]

theorem clearIfExpired_inCooldown_true (rl : RateLimiter) (a : String) (now : Int)
    (h : (clearIfExpired rl a now).inCooldown a = true) :
    rl.inCooldown a = true ∧ ¬rl.cooldownEnd a < now := by
  rw [clearIfExpired] at h
  by_cases hc : rl.inCooldown a = true ∧ rl.cooldownEnd a < now
  · rw [if_pos hc] at h
    simp [updFn] at h
  · rw [if_neg hc] at h
    exact ⟨h, fun hlt => hc ⟨h, hlt⟩⟩

theorem canPerform_noConfig (rl : RateLimiter) (a : String) (now : Int)
    (h : rl.limits a = none) :
    canPerform rl a now = ⟨true, none, rl⟩ := by
  rw [canPerform, h]

theorem canPerform_active (rl : RateLimiter) (a : String) (now : Int)
    (cfg : RateLimitConfig) (h : rl.limits a = some cfg)
    (ha : activeCooldown rl a now) :
    canPerform rl a now =
      ⟨false, some (DenyReason.inCooldownRemaining (rl.cooldownEnd a - now)), rl⟩ := by
  rw [canPerform, h]
  simp only [if_pos ha]

theorem canPerform_daily (rl : RateLimiter) (a : String) (now : Int)
    (cfg : RateLimitConfig) (h : rl.limits a = some cfg)
    (ha : ¬activeCooldown rl a now)
    (hd : countActionsSince rl.actions a (now - 86400) ≥ cfg.dailyLimit) :
    canPerform rl a now =
      ⟨false, some (DenyReason.dailyLimitReached
          (countActionsSince rl.actions a (now - 86400)) cfg.dailyLimit),
        clearIfExpired rl a now⟩ := by
  rw [canPerform, h]
  simp only [if_neg ha, clearIfExpired_actions]
  rw [if_pos hd]

theorem canPerform_hourly (rl : RateLimiter) (a : String) (now : Int)
    (cfg : RateLimitConfig) (h : rl.limits a = some cfg)
    (ha : ¬activeCooldown rl a now)
    (hd : ¬countActionsSince rl.actions a (now - 86400) ≥ cfg.dailyLimit)
    (hh : countActionsSince rl.actions a (now - 3600) ≥ cfg.hourlyLimit) :
    canPerform rl a now =
      ⟨false, some (DenyReason.hourlyLimitReached
          (countActionsSince rl.actions a (now - 3600)) cfg.hourlyLimit),
        clearIfExpired rl a now⟩ := by
  rw [canPerform, h]
  simp only [if_neg ha, clearIfExpired_actions]
  rw [if_neg hd, if_pos hh]

theorem canPerform_tooSoon (rl : RateLimiter) (a : String) (now : Int)
    (cfg : RateLimitConfig) (lastTime : Int) (h : rl.limits a = some cfg)
    (ha : ¬activeCooldown rl a now)
    (hd : ¬countActionsSince rl.actions a (now - 86400) ≥ cfg.dailyLimit)
    (hh : ¬countActionsSince rl.actions a (now - 3600) ≥ cfg.hourlyLimit)
    (hlt : rl.lastAction a = some lastTime)
    (hsoon : now - lastTime < cfg.minIntervalSeconds) :
    canPerform rl a now =
      ⟨false, some (DenyReason.tooSoon (cfg.minIntervalSeconds - (now - lastTime))),
        clearIfExpired rl a now⟩ := by
  rw [canPerform, h]
  simp only [if_neg ha, clearIfExpired_actions, clearIfExpired_lastAction]
  rw [if_neg hd, if_neg hh, hlt]
  simp only [if_pos hsoon]

theorem canPerform_allows (rl : RateLimiter) (a : String) (now : Int)
    (cfg : RateLimitConfig) (h : rl.limits a = some cfg)
    (ha : ¬activeCooldown rl a now)
    (hd : ¬countActionsSince rl.actions a (now - 86400) ≥ cfg.dailyLimit)
    (hh : ¬countActionsSince rl.actions a (now - 3600) ≥ cfg.hourlyLimit)
    (hla : ∀ lastTime, rl.lastAction a = some lastTime →
      cfg.minIntervalSeconds ≤ now - lastTime) :
    canPerform rl a now = ⟨true, none, clearIfExpired rl a now⟩ := by
  rw [canPerform, h]
  simp only [if_neg ha, clearIfExpired_actions, clearIfExpired_lastAction]
  rw [if_neg hd, if_neg hh]
  cases hlt : rl.lastAction a with
  | none => rfl
  | some lastTime =>
    have hge : ¬now - lastTime < cfg.minIntervalSeconds := by
      have := hla lastTime hlt
      omega
    exact if_neg hge

theorem recordAction_limits (rl : RateLimiter) (a : String) (now : Int) :
    (recordAction rl a now).limits = rl.limits := by
  rw [recordAction]
  cases h : rl.limits a with
  | none => rfl
  | some cfg =>
    simp only [h]
    split_ifs <;> rfl

theorem recordAction_lastAction (rl : RateLimiter) (a : String) (now : Int) :
    (recordAction rl a now).lastAction a = some now := by
  rw [recordAction]
  cases h : rl.limits a with
  | none => simp [updFn]
  | some cfg =>
    simp only [h]
    split_ifs <;> simp [updFn]

theorem recordAction_actions (rl : RateLimiter) (a : String) (now : Int)
    (cfg : RateLimitConfig) (h : rl.limits a = some cfg) :
    (recordAction rl a now).actions = pruneOldActions now (rl.actions ++ [⟨now, a⟩]) := by
  rw [recordAction]
  simp only [h]

theorem recordAction_burstCount (rl : RateLimiter) (a : String) (now : Int)
    (cfg : RateLimitConfig) (h : rl.limits a = some cfg) :
    (recordAction rl a now).burstCount a = burstCountAfterReset rl a now cfg + 1 := by
  rw [recordAction]
  simp only [h]
  split_ifs <;> simp [updFn, burstCountAfterReset]

theorem recordAction_actions_noConfig (rl : RateLimiter) (a : String) (now : Int)
    (h : rl.limits a = none) :
    (recordAction rl a now).actions = rl.actions ++ [⟨now, a⟩] := by
  rw [recordAction]
  simp only [h]

theorem recordAction_burst_trigger (rl : RateLimiter) (a : String) (now : Int)
    (cfg : RateLimitConfig) (h : rl.limits a = some cfg)
    (hb : burstCountAfterReset rl a now cfg + 1 ≥ cfg.burstLimit) :
    (recordAction rl a now).inCooldown a = true ∧
      (recordAction rl a now).cooldownEnd a = now + cfg.burstCooldown := by
  rw [recordAction]
  simp only [h]
  rw [if_pos hb, if_neg]
  · constructor <;> simp [updFn]
  · intro hcontra
    have := hcontra.2
    simp [updFn] at this

theorem countActionsSince_nonneg (l : List ActionRecord) (a : String) (since : Int) :
    0 ≤ countActionsSince l a since := by
  rw [countActionsSince]
  exact_mod_cast Nat.zero_le _

theorem countActionsSince_mono (l : List ActionRecord) (a : String) (s1 s2 : Int)
    (h : s1 ≤ s2) : countActionsSince l a s2 ≤ countActionsSince l a s1 := by
  rw [countActionsSince, countActionsSince, ← List.countP_eq_length_filter,
    ← List.countP_eq_length_filter]
  have hmono := List.countP_mono_left (l := l)
    (p := fun r => decide (r.type = a ∧ s2 < r.timestamp))
    (q := fun r => decide (r.type = a ∧ s1 < r.timestamp))
    (fun x _ hpx => by
      simp only [decide_eq_true_eq] at hpx ⊢
      exact ⟨hpx.1, by omega⟩)
  exact_mod_cast hmono

theorem countActionsSince_append_single (l : List ActionRecord) (a : String)
    (since t : Int) (ht : since < t) :
    countActionsSince (l ++ [⟨t, a⟩]) a since = countActionsSince l a since + 1 := by
  rw [countActionsSince, countActionsSince, List.filter_append, List.length_append]
  have h1 : (List.filter (fun r => decide (r.type = a ∧ since < r.timestamp))
      [(⟨t, a⟩ : ActionRecord)]).length = 1 := by
    simp [ht]
  rw [h1]
  push_cast
  ring

theorem countActionsSince_recordAction (rl : RateLimiter) (a : String) (now t : Int)
    (h1 : now - 86400 < t) (h2 : t ≤ now) :
    countActionsSince (recordAction rl a t).actions a (now - 86400)
      = countActionsSince rl.actions a (now - 86400) + 1 := by
  cases h : rl.limits a with
  | none =>
    rw [recordAction_actions_noConfig rl a t h,
      countActionsSince_append_single _ _ _ _ (by omega)]
  | some cfg =>
    rw [recordAction_actions rl a t cfg h,
      countActionsSince_pruneOldActions _ _ _ _ (by omega),
      countActionsSince_append_single _ _ _ _ (by omega)]

theorem recordMany_cons (rl : RateLimiter) (a : String) (t : Int) (ts : List Int) :
    recordMany rl a (t :: ts) = recordMany (recordAction rl a t) a ts := rfl

theorem recordMany_limits (rl : RateLimiter) (a : String) (ts : List Int) :
    (recordMany rl a ts).limits = rl.limits := by
  induction ts generalizing rl with
  | nil => rfl
  | cons t rest ih =>
    rw [recordMany_cons, ih, recordAction_limits]

theorem countActionsSince_recordMany (rl : RateLimiter) (a : String) (now : Int)
    (ts : List Int) (h : ∀ t ∈ ts, now - 86400 < t ∧ t ≤ now) :
    countActionsSince (recordMany rl a ts).actions a (now - 86400)
      = countActionsSince rl.actions a (now - 86400) + ts.length := by
  induction ts generalizing rl with
  | nil => simp [recordMany]
  | cons t rest ih =>
    have hmem := h t (List.mem_cons_self t rest)
    rw [recordMany_cons, ih (recordAction rl a t)
      (fun x hx => h x (List.mem_cons_of_mem _ hx)),
      countActionsSince_recordAction rl a now t hmem.1 hmem.2]
    simp only [List.length_cons]
    push_cast
    ring

theorem pruneOldActions_idem (now : Int) (l : List ActionRecord) :
    pruneOldActions now (pruneOldActions now l) = pruneOldActions now l := by
  simp only [pruneOldActions, List.filter_filter]
  apply List.filter_congr
  intro r _
  by_cases hp : now - 86400 < r.timestamp <;> simp [hp]

theorem canPerform_state_nonactive (rl : RateLimiter) (a : String) (now : Int)
    (cfg : RateLimitConfig) (h : rl.limits a = some cfg)
    (ha : ¬activeCooldown rl a now) :
    (canPerform rl a now).state = clearIfExpired rl a now := by
  rw [canPerform, h]
  simp only [if_neg ha]
  split_ifs
  · rfl
  · rfl
  · cases hlt : (clearIfExpired rl a now).lastAction a with
    | none => rfl
    | some lastTime =>
      by_cases hs : now - lastTime < cfg.minIntervalSeconds
      · simp only [if_pos hs]
      · simp only [if_neg hs]

theorem clearIfExpired_inCooldown_ne (rl : RateLimiter) (a b : String) (now : Int)
    (hne : b ≠ a) : (clearIfExpired rl a now).inCooldown b = rl.inCooldown b := by
  rw [clearIfExpired]
  split
  · simp [updFn, hne]
  · rfl

theorem clearIfExpired_burstCount_ne (rl : RateLimiter) (a b : String) (now : Int)
    (hne : b ≠ a) : (clearIfExpired rl a now).burstCount b = rl.burstCount b := by
  rw [clearIfExpired]
  split
  · simp [updFn, hne]
  · rfl

/-!
## The claims
-/

/-- C7: action records older than 24 hours never contribute to the
daily or the hourly count consulted by `CanPerform` (pruning the ledger
at `now` changes neither count), pruning runs on every `RecordAction`
of a configured action type (the resulting ledger is exactly the prune
of the appended ledger), and pruning is idempotent: pruning twice at
the same instant yields the same surviving records as pruning once. -/
theorem prune_idempotent_counts (rl : RateLimiter) (a : String) (now : Int)
    (cfg : RateLimitConfig) (h : rl.limits a = some cfg) :
    (countActionsSince (pruneOldActions now rl.actions) a (now - 86400)
        = countActionsSince rl.actions a (now - 86400) ∧
      countActionsSince (pruneOldActions now rl.actions) a (now - 3600)
        = countActionsSince rl.actions a (now - 3600)) ∧
    (recordAction rl a now).actions = pruneOldActions now (rl.actions ++ [⟨now, a⟩]) ∧
    pruneOldActions now (pruneOldActions now rl.actions) = pruneOldActions now rl.actions :=
  ⟨⟨countActionsSince_pruneOldActions rl.actions a now (now - 86400) (by omega),
    countActionsSince_pruneOldActions rl.actions a now (now - 3600) (by omega)⟩,
   recordAction_actions rl a now cfg h,
   pruneOldActions_idem now rl.actions⟩

theorem prune_idempotent_counts_witness :
    (newRateLimiter (limitsFor cfgScenario)).limits "connection" = some cfgScenario ∧
      (recordAction (newRateLimiter (limitsFor cfgScenario)) "connection" 5).actions
        = pruneOldActions 5 ((newRateLimiter (limitsFor cfgScenario)).actions ++ [⟨5, "connection"⟩]) :=
  ⟨by decide,
   (prune_idempotent_counts (newRateLimiter (limitsFor cfgScenario)) "connection" 5 cfgScenario
     (by decide)).2.1⟩

/-- C10: `RecordAction` performs no admission check: for every limiter
state with a configuration for the action type — including states in
which `CanPerform` currently returns false — the call still appends the
record (and prunes), still sets `lastAction` to now, and still
increments the (possibly window-reset) burst count; concretely, with
dailyLimit 2 and the daily quota used up (`CanPerform` denying),
recording a third action raises the stored daily count to 3, above the
limit.  Enforcement rests with callers consulting `CanPerform`. -/
theorem recordAction_no_admission (rl : RateLimiter) (a : String) (now : Int)
    (cfg : RateLimitConfig) (h : rl.limits a = some cfg) :
    ((recordAction rl a now).actions = pruneOldActions now (rl.actions ++ [⟨now, a⟩]) ∧
      (recordAction rl a now).lastAction a = some now ∧
      (recordAction rl a now).burstCount a = burstCountAfterReset rl a now cfg + 1) ∧
    ((canPerform rlAtDailyLimit "connection" 100).allowed = false ∧
      cfgNoAdmission.dailyLimit = 2 ∧
      countActionsSince (recordAction rlAtDailyLimit "connection" 100).actions
        "connection" (100 - 86400) = 3) :=
  ⟨⟨recordAction_actions rl a now cfg h,
    recordAction_lastAction rl a now,
    recordAction_burstCount rl a now cfg h⟩,
   by decide⟩

theorem recordAction_no_admission_witness :
    rlAtDailyLimit.limits "connection" = some cfgNoAdmission ∧
      (recordAction rlAtDailyLimit "connection" 100).lastAction "connection" = some 100 :=
  ⟨by decide,
   (recordAction_no_admission rlAtDailyLimit "connection" 100 cfgNoAdmission
     (by decide)).1.2.1⟩

/-- C2: for a configured action type, `CanPerform` evaluates its
conditions in the fixed order (1) active cooldown, (2) daily count of
the trailing 24h against dailyLimit, (3) hourly count of the trailing
1h against hourlyLimit, (4) minimum spacing since the last action; the
first violated condition determines the returned (false, reason) pair.
In particular (the spec's example scenario, dailyLimit 3, burstLimit 2,
burstCooldownSeconds 60): after recording 2 actions 1 second apart, the
next `CanPerform` call is denied with the cooldown reason — not the
daily-limit reason — while the daily count 2 is still below the cap 3. -/
theorem canPerform_order_and_burst_scenario (rl : RateLimiter) (a : String) (now : Int)
    (cfg : RateLimitConfig) (h : rl.limits a = some cfg) :
    ((activeCooldown rl a now →
        canPerform rl a now =
          ⟨false, some (DenyReason.inCooldownRemaining (rl.cooldownEnd a - now)), rl⟩) ∧
      (¬activeCooldown rl a now →
        countActionsSince rl.actions a (now - 86400) ≥ cfg.dailyLimit →
        canPerform rl a now =
          ⟨false, some (DenyReason.dailyLimitReached
            (countActionsSince rl.actions a (now - 86400)) cfg.dailyLimit),
            clearIfExpired rl a now⟩) ∧
      (¬activeCooldown rl a now →
        ¬countActionsSince rl.actions a (now - 86400) ≥ cfg.dailyLimit →
        countActionsSince rl.actions a (now - 3600) ≥ cfg.hourlyLimit →
        canPerform rl a now =
          ⟨false, some (DenyReason.hourlyLimitReached
            (countActionsSince rl.actions a (now - 3600)) cfg.hourlyLimit),
            clearIfExpired rl a now⟩) ∧
      (¬activeCooldown rl a now →
        ¬countActionsSince rl.actions a (now - 86400) ≥ cfg.dailyLimit →
        ¬countActionsSince rl.actions a (now - 3600) ≥ cfg.hourlyLimit →
        ∀ lastTime, rl.lastAction a = some lastTime →
          now - lastTime < cfg.minIntervalSeconds →
          canPerform rl a now =
            ⟨false, some (DenyReason.tooSoon (cfg.minIntervalSeconds - (now - lastTime))),
              clearIfExpired rl a now⟩) ∧
      (¬activeCooldown rl a now →
        ¬countActionsSince rl.actions a (now - 86400) ≥ cfg.dailyLimit →
        ¬countActionsSince rl.actions a (now - 3600) ≥ cfg.hourlyLimit →
        (∀ lastTime, rl.lastAction a = some lastTime →
          cfg.minIntervalSeconds ≤ now - lastTime) →
        canPerform rl a now = ⟨true, none, clearIfExpired rl a now⟩)) ∧
    ((canPerform rlScenario "connection" 2).allowed = false ∧
      (canPerform rlScenario "connection" 2).reason =
        some (DenyReason.inCooldownRemaining 59) ∧
      countActionsSince rlScenario.actions "connection" (2 - 86400) = 2 ∧
      cfgScenario.dailyLimit = 3) :=
  ⟨⟨fun ha => canPerform_active rl a now cfg h ha,
    fun ha hd => canPerform_daily rl a now cfg h ha hd,
    fun ha hd hh => canPerform_hourly rl a now cfg h ha hd hh,
    fun ha hd hh lastTime hlt hs => canPerform_tooSoon rl a now cfg lastTime h ha hd hh hlt hs,
    fun ha hd hh hla => canPerform_allows rl a now cfg h ha hd hh hla⟩,
   by decide⟩

theorem canPerform_order_and_burst_scenario_witness :
    rlScenario.limits "connection" = some cfgScenario ∧
      (activeCooldown rlScenario "connection" 2 →
        canPerform rlScenario "connection" 2 =
          ⟨false, some (DenyReason.inCooldownRemaining
            (rlScenario.cooldownEnd "connection" - 2)), rlScenario⟩) :=
  ⟨by decide,
   (canPerform_order_and_burst_scenario rlScenario "connection" 2 cfgScenario
     (by decide)).1.1⟩

/-- C3 counterexample: under `cfgBothTriggers` the second `RecordAction`
call (at time 1) fires both cooldown triggers — the burst count reaches
burstLimit = 2 and the trailing-hour count reaches cooldownThreshold =
2 — yet the stored cooldown end is 1 + burstCooldown = 61, not
1 + cooldownMinutes·60 = 301: the threshold trigger did NOT overwrite
the burst cooldown, so the claimed last-write-wins behaviour is false. -/
theorem burst_threshold_no_overwrite_cex :
    rlOneAction.burstCount "connection" + 1 ≥ cfgBothTriggers.burstLimit ∧
    countActionsSince rlBothTriggers.actions "connection" (1 - 3600)
      ≥ cfgBothTriggers.cooldownThreshold ∧
    rlBothTriggers.inCooldown "connection" = true ∧
    rlBothTriggers.cooldownEnd "connection" = 1 + cfgBothTriggers.burstCooldown ∧
    rlBothTriggers.cooldownEnd "connection" ≠ 1 + cfgBothTriggers.cooldownDuration * 60 := by
  decide

/-- C3 amended: when a `RecordAction` call fires the burst trigger, the
threshold trigger is skipped — its guard requires the type not to be in
cooldown, which the burst trigger has just set — so the burst-based end
time `now + burstCooldownSeconds` stands even when the trailing-hour
count also reaches cooldownThreshold: the first write wins, not the
last. -/
theorem burst_cooldown_first_write_wins (rl : RateLimiter) (a : String) (now : Int)
    (cfg : RateLimitConfig) (h : rl.limits a = some cfg)
    (hb : burstCountAfterReset rl a now cfg + 1 ≥ cfg.burstLimit) :
    (recordAction rl a now).inCooldown a = true ∧
      (recordAction rl a now).cooldownEnd a = now + cfg.burstCooldown :=
  recordAction_burst_trigger rl a now cfg h hb

theorem burst_cooldown_first_write_wins_witness :
    rlOneAction.limits "connection" = some cfgBothTriggers ∧
      burstCountAfterReset rlOneAction "connection" 1 cfgBothTriggers + 1
        ≥ cfgBothTriggers.burstLimit ∧
      (recordAction rlOneAction "connection" 1).cooldownEnd "connection"
        = 1 + cfgBothTriggers.burstCooldown :=
  ⟨by decide, by decide,
   (burst_cooldown_first_write_wins rlOneAction "connection" 1 cfgBothTriggers
     (by decide) (by decide)).2⟩

/-- C5 counterexample: under `cfgTightDaily` (dailyLimit 1, burstLimit
1), N = 1 ≥ dailyLimit action was recorded (at time 0) inside the
rolling 24h window of now = 10, so the claim says `CanPerform` returns
false with a daily-limit reason; it does return false, but with the
cooldown reason (the burst cooldown started by that same call is still
active), not the daily-limit reason. -/
theorem daily_limit_reason_cex :
    countActionsSince rlTightDaily.actions "connection" (10 - 86400) = 1 ∧
    cfgTightDaily.dailyLimit = 1 ∧
    (canPerform rlTightDaily "connection" 10).allowed = false ∧
    (canPerform rlTightDaily "connection" 10).reason =
      some (DenyReason.inCooldownRemaining 90) ∧
    (canPerform rlTightDaily "connection" 10).reason ≠
      some (DenyReason.dailyLimitReached 1 1) := by
  decide

/-- C5 amended: after N `RecordAction` calls of a configured action
type, all at times inside the trailing 24-hour window of `now`, with
N ≥ dailyLimit, `CanPerform` at `now` returns false; the reason
identifies the daily limit unless a cooldown is still active at the
check (in which case the cooldown reason is returned instead). -/
theorem daily_limit_denies (rl : RateLimiter) (a : String) (now : Int)
    (cfg : RateLimitConfig) (ts : List Int) (h : rl.limits a = some cfg)
    (hts : ∀ t ∈ ts, now - 86400 < t ∧ t ≤ now)
    (hn : cfg.dailyLimit ≤ (ts.length : Int)) :
    (canPerform (recordMany rl a ts) a now).allowed = false ∧
    (¬activeCooldown (recordMany rl a ts) a now →
      (canPerform (recordMany rl a ts) a now).reason =
        some (DenyReason.dailyLimitReached
          (countActionsSince (recordMany rl a ts).actions a (now - 86400))
          cfg.dailyLimit)) := by
  have hlim : (recordMany rl a ts).limits a = some cfg := by
    rw [recordMany_limits]; exact h
  have hcount : countActionsSince (recordMany rl a ts).actions a (now - 86400)
      ≥ cfg.dailyLimit := by
    rw [countActionsSince_recordMany rl a now ts hts]
    have := countActionsSince_nonneg rl.actions a (now - 86400)
    omega
  constructor
  · by_cases ha : activeCooldown (recordMany rl a ts) a now
    · rw [canPerform_active (recordMany rl a ts) a now cfg hlim ha]
    · rw [canPerform_daily (recordMany rl a ts) a now cfg hlim ha hcount]
  · intro ha
    rw [canPerform_daily (recordMany rl a ts) a now cfg hlim ha hcount]

theorem daily_limit_denies_witness :
    (newRateLimiter (limitsFor cfgNoAdmission)).limits "connection" = some cfgNoAdmission ∧
      (∀ t ∈ [(5 : Int), 6], 10 - 86400 < t ∧ t ≤ 10) ∧
      cfgNoAdmission.dailyLimit ≤ (([(5 : Int), 6].length : Nat) : Int) ∧
      (canPerform (recordMany (newRateLimiter (limitsFor cfgNoAdmission)) "connection"
        [5, 6]) "connection" 10).allowed = false :=
  ⟨by decide, by decide, by decide,
   (daily_limit_denies (newRateLimiter (limitsFor cfgNoAdmission)) "connection" 10
     cfgNoAdmission [5, 6] (by decide) (by decide) (by decide)).1⟩

/-- C6: when an action type is in cooldown whose end time has passed,
the `CanPerform` check clears the cooldown flag and resets exactly that
type's burst count to 0 as a side effect (other action types'
cooldown flags and burst counts are untouched); concretely, under
`cfgReburst` (burstLimit 3), after the expired cooldown is cleared at
time 63, exactly burstLimit further actions can be recorded — the first
two (at 64 and 65) re-trigger no cooldown, and the third (at 66) is
still recorded, triggering the next burst cooldown only at that
point. -/
theorem cooldown_clear_resets_burst (rl : RateLimiter) (a : String) (now : Int)
    (cfg : RateLimitConfig) (h : rl.limits a = some cfg)
    (hc : rl.inCooldown a = true) (he : rl.cooldownEnd a < now) :
    ((canPerform rl a now).state.inCooldown a = false ∧
      (canPerform rl a now).state.burstCount a = 0 ∧
      (∀ b, b ≠ a → (canPerform rl a now).state.inCooldown b = rl.inCooldown b ∧
        (canPerform rl a now).state.burstCount b = rl.burstCount b)) ∧
    (rlAfterBurst.inCooldown "connection" = true ∧
      rlAfterBurst.cooldownEnd "connection" = 62 ∧
      rlCleared.inCooldown "connection" = false ∧
      rlCleared.burstCount "connection" = 0 ∧
      (recordAction rlCleared "connection" 64).inCooldown "connection" = false ∧
      (recordAction (recordAction rlCleared "connection" 64) "connection" 65).inCooldown
        "connection" = false ∧
      (recordAction (recordAction (recordAction rlCleared "connection" 64) "connection" 65)
        "connection" 66).inCooldown "connection" = true ∧
      (recordAction (recordAction (recordAction rlCleared "connection" 64) "connection" 65)
        "connection" 66).cooldownEnd "connection" = 66 + cfgReburst.burstCooldown) := by
  have ha : ¬activeCooldown rl a now := by
    intro hact
    exact absurd hact.2 (by omega)
  have hstate : (canPerform rl a now).state = clearIfExpired rl a now :=
    canPerform_state_nonactive rl a now cfg h ha
  refine ⟨⟨?_, ?_, ?_⟩, by decide⟩
  · rw [hstate]
    exact (clearIfExpired_clears rl a now hc he).1
  · rw [hstate]
    exact (clearIfExpired_clears rl a now hc he).2
  · intro b hb
    rw [hstate]
    exact ⟨clearIfExpired_inCooldown_ne rl a b now hb,
      clearIfExpired_burstCount_ne rl a b now hb⟩

theorem cooldown_clear_resets_burst_witness :
    rlAfterBurst.limits "connection" = some cfgReburst ∧
      rlAfterBurst.inCooldown "connection" = true ∧
      rlAfterBurst.cooldownEnd "connection" < 63 ∧
      (canPerform rlAfterBurst "connection" 63).state.burstCount "connection" = 0 :=
  ⟨by decide, by decide, by decide,
   (cooldown_clear_resets_burst rlAfterBurst "connection" 63 cfgReburst
     (by decide) (by decide) (by decide)).1.2.1⟩

theorem foldl_latest_mem (l : List WorkflowState) :
    ∀ (acc : Option WorkflowState) (w : WorkflowState),
      l.foldl (fun acc w => match acc with
        | none => some w
        | some b => if w.startedAt > b.startedAt then some w else some b) acc = some w →
      w ∈ l ∨ acc = some w := by
  induction l with
  | nil =>
    intro acc w h
    right
    exact h
  | cons x rest ih =>
    intro acc w h
    rw [List.foldl_cons] at h
    rcases ih _ w h with hmem | hacc
    · left
      exact List.mem_cons_of_mem _ hmem
    · cases acc with
      | none =>
        left
        simp only [] at hacc
        injection hacc with hxw
        rw [← hxw]
        exact List.mem_cons_self x rest
      | some b =>
        by_cases hgt : x.startedAt > b.startedAt
        · left
          simp only [if_pos hgt] at hacc
          injection hacc with hxw
          rw [← hxw]
          exact List.mem_cons_self x rest
        · right
          simp only [if_neg hgt] at hacc
          exact hacc

theorem getActiveWorkflow_some (db : List WorkflowState) (t : String)
    (w : WorkflowState) (h : getActiveWorkflow db t = some w) :
    w ∈ db ∧ w.workflowType = t ∧ (w.status = "in_progress" ∨ w.status = "paused") := by
  rw [getActiveWorkflow] at h
  rcases foldl_latest_mem _ none w h with hmem | habs
  · have := List.mem_filter.mp hmem
    refine ⟨this.1, ?_⟩
    have hp := this.2
    simp only [decide_eq_true_eq] at hp
    exact hp
  · cases habs

theorem saveWorkflowState_snd_status (db : List WorkflowState) (st : WorkflowState)
    (now newId : Int) (hs : st.status ≠ "") :
    (saveWorkflowState db st now newId).2.status = st.status := by
  rw [saveWorkflowState]
  by_cases h1 : st.startedAt = 0 <;> by_cases h2 : st.id = 0 <;>
    simp [h1, h2, hs]

theorem resumeWorkflowLoop_some (db : List WorkflowState) (id now newId : Int) :
    ∀ (ts : List String) (db2 : List WorkflowState) (st2 : WorkflowState),
      resumeWorkflowLoop db id now newId ts = some (db2, st2) →
      st2.status = "in_progress" ∧
        ∃ v ∈ db, v.id = id ∧ (v.status = "in_progress" ∨ v.status = "paused") := by
  intro ts
  induction ts with
  | nil =>
    intro db2 st2 h
    exact absurd h (by rw [resumeWorkflowLoop]; simp)
  | cons t rest ih =>
    intro db2 st2 h
    rw [resumeWorkflowLoop] at h
    cases hga : getActiveWorkflow db t with
    | none =>
      rw [hga] at h
      exact ih db2 st2 h
    | some st =>
      rw [hga] at h
      by_cases hid : st.id = id
      · simp only [if_pos hid] at h
        injection h with hpair
        obtain ⟨hmem, _, hstat⟩ := getActiveWorkflow_some db t st hga
        have hst2 : st2 = (saveWorkflowState db { st with status := "in_progress" }
            now newId).2 := by
          rw [hpair]
        constructor
        · rw [hst2, saveWorkflowState_snd_status]
          simp
        · exact ⟨st, hmem, hid, hstat⟩
      · simp only [if_neg hid] at h
        exact ih db2 st2 h

/-- C4 counterexample: `Store.PauseWorkflow` is an unconditional
UPDATE by id — applied to the workflow of `dbCompleted`, whose status
is already Completed, it changes the status to Paused, a
Completed→Paused transition that the claimed rule forbids (Completed is
terminal). -/
theorem pause_completed_workflow_cex :
    dbCompleted.map (fun w => w.status) = ["completed"] ∧
    (pauseWorkflow dbCompleted 1 300).map (fun w => w.status) = ["paused"] := by
  decide

/-- C4 amended: the store's status-changing operations set the target
status unconditionally on every row matching the id, regardless of the
row's current status (so transitions out of Completed/Failed are not
prevented by the operations themselves); rows with other ids are
untouched.  `UpdateWorkflowProgress` never changes a status;
`SaveWorkflowState` on an existing id writes whatever non-empty status
the caller supplies; `ResumeWorkflow` sets InProgress only on a
workflow obtained from `GetActiveWorkflow`, hence one whose prior
status was InProgress or Paused. -/
theorem workflow_ops_unconditional_status (db : List WorkflowState)
    (id now idx newId : Int) (step msg : String) (st : WorkflowState) :
    (∀ w ∈ pauseWorkflow db id now,
      (w.id = id → w.status = "paused" ∧ w.pausedAt = some now) ∧
      (w.id ≠ id → w ∈ db)) ∧
    (∀ w ∈ completeWorkflow db id now,
      (w.id = id → w.status = "completed" ∧ w.completedAt = some now) ∧
      (w.id ≠ id → w ∈ db)) ∧
    (∀ w ∈ failWorkflow db id msg now,
      (w.id = id → w.status = "failed" ∧ w.errorMessage = msg ∧
        w.completedAt = some now) ∧
      (w.id ≠ id → w ∈ db)) ∧
    (∀ w ∈ updateWorkflowProgress db id idx step,
      ∃ v ∈ db, v.id = w.id ∧ w.status = v.status) ∧
    (st.id ≠ 0 → st.status ≠ "" →
      ∀ w ∈ (saveWorkflowState db st now newId).1, w.id = st.id → w.status = st.status) ∧
    (∀ (db2 : List WorkflowState) (st2 : WorkflowState),
      resumeWorkflowLoop db id now newId workflowTypeList = some (db2, st2) →
      st2.status = "in_progress" ∧
        ∃ v ∈ db, v.id = id ∧ (v.status = "in_progress" ∨ v.status = "paused")) := by
  refine ⟨?_, ?_, ?_, ?_, ?_, ?_⟩
  · intro w hw
    obtain ⟨v, hv, rfl⟩ := List.mem_map.mp hw
    by_cases hvid : v.id = id
    · simp only [pauseWorkflow] at *
      constructor
      · intro _
        simp [hvid]
      · intro hne
        exact absurd (by simp [hvid]) hne
    · constructor
      · intro heq
        exact absurd (by simpa [hvid] using heq) hvid
      · intro _
        simpa [hvid] using hv
  · intro w hw
    obtain ⟨v, hv, rfl⟩ := List.mem_map.mp hw
    by_cases hvid : v.id = id
    · constructor
      · intro _
        simp [hvid]
      · intro hne
        exact absurd (by simp [hvid]) hne
    · constructor
      · intro heq
        exact absurd (by simpa [hvid] using heq) hvid
      · intro _
        simpa [hvid] using hv
  · intro w hw
    obtain ⟨v, hv, rfl⟩ := List.mem_map.mp hw
    by_cases hvid : v.id = id
    · constructor
      · intro _
        simp [hvid]
      · intro hne
        exact absurd (by simp [hvid]) hne
    · constructor
      · intro heq
        exact absurd (by simpa [hvid] using heq) hvid
      · intro _
        simpa [hvid] using hv
  · intro w hw
    obtain ⟨v, hv, rfl⟩ := List.mem_map.mp hw
    refine ⟨v, hv, ?_, ?_⟩
    · by_cases hvid : v.id = id <;> simp [hvid]
    · by_cases hvid : v.id = id <;> simp [hvid]
  · intro hid hs w hw hwid
    rw [saveWorkflowState] at hw
    by_cases h1 : st.startedAt = 0 <;>
      simp only [h1, if_pos, if_neg, ite_true, ite_false, hs, hid] at hw <;>
    · obtain ⟨v, hv, rfl⟩ := List.mem_map.mp hw
      by_cases hvid : v.id = st.id
      · simp [hvid]
      · exact absurd (by simpa [hvid] using hwid) hvid
  · exact resumeWorkflowLoop_some db id now newId workflowTypeList

theorem pauseWorkflow_foldl (ids : List Int) (db : List WorkflowState) (now : Int) :
    ids.foldl (fun d i => pauseWorkflow d i now) db =
      db.map (fun w => if w.id ∈ ids then
        { w with status := "paused", pausedAt := some now } else w) := by
  induction ids generalizing db with
  | nil => simp
  | cons i rest ih =>
    rw [List.foldl_cons, ih, pauseWorkflow, List.map_map]
    apply List.map_congr_left
    intro w _
    by_cases hwi : w.id = i
    · by_cases hrest : w.id ∈ rest <;>
        simp [Function.comp, hwi, hrest, List.mem_cons]
    · by_cases hrest : w.id ∈ rest <;>
        simp [Function.comp, hwi, hrest, List.mem_cons]

/-- C1: on receipt of an interrupt/terminate signal, the handler
goroutine's event sequence is exactly the pauses of all tracked
workflows, then the registered shutdown handlers in order, and only
then the process exit; provided every InProgress row of the store is a
tracked workflow (as holds for workflows this process started or
resumed), the store persisted before the exit has no InProgress row,
and every workflow that was InProgress is persisted with status Paused
and a non-nil pausedAt. -/
theorem shutdown_pause_before_exit (rm : ResumptionManager) (now : Int)
    (htrack : ∀ w ∈ rm.store, w.status = "in_progress" → w.id ∈ rm.activeWorkflows) :
    (∃ A B, shutdownTrace rm = A ++ B ++ [ShutdownEvent.exitProcess] ∧
      (∀ e ∈ A, ∃ id, e = ShutdownEvent.pausedWorkflow id) ∧
      (∀ w ∈ rm.store, w.status = "in_progress" →
        ShutdownEvent.pausedWorkflow w.id ∈ A) ∧
      (∀ e ∈ B, ∃ i, e = ShutdownEvent.ranHandler i)) ∧
    (∀ w ∈ shutdownStore rm now, w.status ≠ "in_progress") ∧
    (∀ w ∈ rm.store, w.status = "in_progress" →
      { w with status := "paused", pausedAt := some now } ∈ shutdownStore rm now) := by
  refine ⟨⟨rm.activeWorkflows.map ShutdownEvent.pausedWorkflow,
    (List.range rm.shutdownHandlers).map ShutdownEvent.ranHandler, rfl, ?_, ?_, ?_⟩, ?_, ?_⟩
  · intro e he
    obtain ⟨id, _, rfl⟩ := List.mem_map.mp he
    exact ⟨id, rfl⟩
  · intro w hw hst
    exact List.mem_map_of_mem _ (htrack w hw hst)
  · intro e he
    obtain ⟨i, _, rfl⟩ := List.mem_map.mp he
    exact ⟨i, rfl⟩
  · intro w hw
    rw [shutdownStore, pauseAllWorkflows] at hw
    simp only [] at hw
    rw [pauseWorkflow_foldl] at hw
    obtain ⟨v, hv, rfl⟩ := List.mem_map.mp hw
    by_cases hid : v.id ∈ rm.activeWorkflows
    · simp [hid]
    · simp only [hid, ite_false, if_neg]
      intro hst
      exact hid (htrack v hv hst)
  · intro w hw hst
    have hid := htrack w hw hst
    rw [shutdownStore, pauseAllWorkflows]
    simp only []
    rw [pauseWorkflow_foldl]
    have hmem := List.mem_map_of_mem
      (fun v => if v.id ∈ rm.activeWorkflows then
        { v with status := "paused", pausedAt := some now } else v) hw
    simpa [hid] using hmem

theorem shutdown_pause_before_exit_witness :
    (∀ w ∈ rmExample.store, w.status = "in_progress" → w.id ∈ rmExample.activeWorkflows) ∧
    (∀ w ∈ shutdownStore rmExample 50, w.status ≠ "in_progress") :=
  ⟨by decide, (shutdown_pause_before_exit rmExample 50 (by decide)).2.1⟩

theorem waitForActionFuel_succ (a : String) (fuel : Nat) (rl : RateLimiter) (now : Int) :
    waitForActionFuel a (fuel + 1) rl now =
      if (canPerform rl a now).allowed then some true
      else if getWaitTime (canPerform rl a now).state a now > 1800 then some false
      else waitForActionFuel a fuel (canPerform rl a now).state
        (now + getWaitTime (canPerform rl a now).state a now) := rfl

theorem getWaitTime_active (rl : RateLimiter) (a : String) (now : Int)
    (cfg : RateLimitConfig) (h : rl.limits a = some cfg)
    (ha : activeCooldown rl a now) :
    getWaitTime rl a now = rl.cooldownEnd a - now + 1 := by
  rw [getWaitTime, h]
  simp only [if_pos ha]

theorem getWaitTime_tooSoon (rl : RateLimiter) (a : String) (now : Int)
    (cfg : RateLimitConfig) (lastTime : Int) (h : rl.limits a = some cfg)
    (ha : ¬activeCooldown rl a now) (hlt : rl.lastAction a = some lastTime)
    (hsoon : now - lastTime < cfg.minIntervalSeconds) :
    getWaitTime rl a now = cfg.minIntervalSeconds - (now - lastTime) + 1 := by
  rw [getWaitTime, h]
  simp only [if_neg ha]
  rw [hlt]
  simp only [if_pos hsoon]

theorem getWaitTime_noLast (rl : RateLimiter) (a : String) (now : Int)
    (cfg : RateLimitConfig) (h : rl.limits a = some cfg)
    (ha : ¬activeCooldown rl a now) (hnone : rl.lastAction a = none) :
    getWaitTime rl a now = cfg.minIntervalSeconds := by
  rw [getWaitTime, h]
  simp only [if_neg ha]
  rw [hnone]

theorem waitForActionFuel_mono (a : String) (n : Nat) :
    ∀ (rl : RateLimiter) (now : Int), (waitForActionFuel a n rl now).isSome = true →
      (waitForActionFuel a (n + 1) rl now).isSome = true := by
  induction n with
  | zero =>
    intro rl now h
    simp [waitForActionFuel] at h
  | succ k ih =>
    intro rl now h
    rw [waitForActionFuel_succ] at h ⊢
    by_cases hal : (canPerform rl a now).allowed = true
    · simp [hal]
    · have hal' : (canPerform rl a now).allowed = false := by
        revert hal; cases (canPerform rl a now).allowed <;> simp
      simp only [hal', Bool.false_eq_true, if_false] at h ⊢
      by_cases hw : getWaitTime (canPerform rl a now).state a now > 1800
      · simp [hw]
      · simp only [hw, if_false] at h ⊢
        exact ih _ _ h

theorem waitForActionFuel_two (rl : RateLimiter) (a : String) (now : Int)
    (cfg : RateLimitConfig) (h : rl.limits a = some cfg)
    (ha : ¬activeCooldown rl a now)
    (hd : countActionsSince rl.actions a (now - 86400) < cfg.dailyLimit)
    (hh : countActionsSince rl.actions a (now - 3600) < cfg.hourlyLimit) :
    (waitForActionFuel a 2 rl now).isSome = true := by
  have hd' : ¬countActionsSince rl.actions a (now - 86400) ≥ cfg.dailyLimit := by omega
  have hh' : ¬countActionsSince rl.actions a (now - 3600) ≥ cfg.hourlyLimit := by omega
  by_cases hla : ∃ lt, rl.lastAction a = some lt ∧ now - lt < cfg.minIntervalSeconds
  · obtain ⟨lt, hlt, hsoon⟩ := hla
    have hden := canPerform_tooSoon rl a now cfg lt h ha hd' hh' hlt hsoon
    have hs2limits : (clearIfExpired rl a now).limits a = some cfg := by
      rw [clearIfExpired_limits]; exact h
    have hs2actions : (clearIfExpired rl a now).actions = rl.actions :=
      clearIfExpired_actions rl a now
    have hs2last : (clearIfExpired rl a now).lastAction a = some lt := by
      rw [clearIfExpired_lastAction]; exact hlt
    have hs2cool : ∀ t2, now ≤ t2 → ¬activeCooldown (clearIfExpired rl a now) a t2 := by
      intro t2 hle hact
      obtain ⟨h1, h2⟩ := hact
      obtain ⟨h3, h4⟩ := clearIfExpired_inCooldown_true rl a now h1
      rw [clearIfExpired_cooldownEnd] at h2
      have hno : ¬now < rl.cooldownEnd a := fun hlt2 => ha ⟨h3, hlt2⟩
      omega
    have hs2coolnow : ¬activeCooldown (clearIfExpired rl a now) a now :=
      hs2cool now (by omega)
    have hwt := getWaitTime_tooSoon (clearIfExpired rl a now) a now cfg lt
      hs2limits hs2coolnow hs2last hsoon
    rw [show (2 : Nat) = 1 + 1 from rfl, waitForActionFuel_succ]
    simp only [hden]
    rw [if_neg (by decide), hwt]
    by_cases hcap : cfg.minIntervalSeconds - (now - lt) + 1 > 1800
    · rw [if_pos hcap]
      rfl
    · rw [if_neg hcap]
      have harith : now + (cfg.minIntervalSeconds - (now - lt) + 1)
          = lt + cfg.minIntervalSeconds + 1 := by ring
      rw [harith]
      have ht2 : now < lt + cfg.minIntervalSeconds + 1 := by omega
      have hallow : canPerform (clearIfExpired rl a now) a (lt + cfg.minIntervalSeconds + 1)
          = ⟨true, none, clearIfExpired (clearIfExpired rl a now) a
              (lt + cfg.minIntervalSeconds + 1)⟩ := by
        apply canPerform_allows _ _ _ cfg hs2limits
        · exact hs2cool _ (by omega)
        · rw [hs2actions]
          intro hge
          have := countActionsSince_mono rl.actions a
            (now - 86400) (lt + cfg.minIntervalSeconds + 1 - 86400) (by omega)
          omega
        · rw [hs2actions]
          intro hge
          have := countActionsSince_mono rl.actions a
            (now - 3600) (lt + cfg.minIntervalSeconds + 1 - 3600) (by omega)
          omega
        · intro lt2 hlt2
          rw [hs2last] at hlt2
          injection hlt2 with he
          omega
      rw [show (1 : Nat) = 0 + 1 from rfl, waitForActionFuel_succ]
      simp [hallow]
  · push_neg at hla
    have hallow := canPerform_allows rl a now cfg h ha hd' hh'
      (fun lt hlt => by have := hla lt hlt; omega)
    rw [show (2 : Nat) = 1 + 1 from rfl, waitForActionFuel_succ]
    simp [hallow]

/-- C8 counterexample: under `cfgZeroDaily` (dailyLimit 0,
minIntervalSeconds 5) the action is denied at every recheck (the daily
count, 0, already meets the limit forever), the computed wait is always
5 seconds ≤ the 30-minute ceiling, and so `WaitForAction` loops
forever: for every number of loop iterations and every start time, the
loop has neither returned true nor returned the give-up false — the
claim that every denial path eventually returns is false. -/
theorem waitForAction_diverges_cex : loopsForever rlZeroDaily "connection" := by
  intro fuel
  induction fuel with
  | zero =>
    intro now
    rfl
  | succ n ih =>
    intro now
    have hlim : rlZeroDaily.limits "connection" = some cfgZeroDaily := by decide
    have hnc : ¬activeCooldown rlZeroDaily "connection" now := by
      intro hact
      exact absurd hact.1 (by decide)
    have hcount : countActionsSince rlZeroDaily.actions "connection" (now - 86400)
        ≥ cfgZeroDaily.dailyLimit := by
      have hz : countActionsSince rlZeroDaily.actions "connection" (now - 86400) = 0 := rfl
      rw [hz]
      decide
    have hden := canPerform_daily rlZeroDaily "connection" now cfgZeroDaily hlim hnc hcount
    have hclear : clearIfExpired rlZeroDaily "connection" now = rlZeroDaily := by
      rw [clearIfExpired, if_neg]
      intro hc
      exact absurd hc.1 (by decide)
    have hwt : getWaitTime rlZeroDaily "connection" now = 5 :=
      getWaitTime_noLast rlZeroDaily "connection" now cfgZeroDaily hlim hnc (by decide)
    rw [waitForActionFuel_succ]
    simp only [hden]
    rw [if_neg (by decide), hclear, hwt, if_neg (by decide)]
    exact ih (now + 5)

/-- C8 amended: whenever `CanPerform` denies, `WaitForAction` computes
a wait; if that wait exceeds the 30-minute (1800 s) ceiling it returns
false immediately, without blocking further.  Provided the daily and
hourly counts at the time of the call are below their limits, the loop
returns within at most 3 iterations (cooldown sleep, minimum-interval
sleep, success), so every such denial path either returns true or
returns the give-up signal.  (Without that proviso the loop can recheck
forever — see the counterexample with dailyLimit 0.) -/
theorem waitForAction_bounded (rl : RateLimiter) (a : String) (now : Int)
    (cfg : RateLimitConfig) (h : rl.limits a = some cfg)
    (hd : countActionsSince rl.actions a (now - 86400) < cfg.dailyLimit)
    (hh : countActionsSince rl.actions a (now - 3600) < cfg.hourlyLimit) :
    (∀ fuel : Nat, (canPerform rl a now).allowed = false →
      getWaitTime (canPerform rl a now).state a now > 1800 →
      waitForActionFuel a (fuel + 1) rl now = some false) ∧
    (waitForActionFuel a 3 rl now).isSome = true := by
  constructor
  · intro fuel hal hw
    rw [waitForActionFuel_succ]
    simp only [hal, Bool.false_eq_true, if_false]
    rw [if_pos hw]
  · by_cases hact : activeCooldown rl a now
    · have hden := canPerform_active rl a now cfg h hact
      have hw1 := getWaitTime_active rl a now cfg h hact
      rw [show (3 : Nat) = 2 + 1 from rfl, waitForActionFuel_succ]
      simp only [hden]
      rw [if_neg (by decide), hw1]
      by_cases hcap : rl.cooldownEnd a - now + 1 > 1800
      · rw [if_pos hcap]
        rfl
      · rw [if_neg hcap]
        have harith : now + (rl.cooldownEnd a - now + 1) = rl.cooldownEnd a + 1 := by ring
        rw [harith]
        have hnow : now < rl.cooldownEnd a := hact.2
        apply waitForActionFuel_two rl a (rl.cooldownEnd a + 1) cfg h
        · intro hact2
          exact absurd hact2.2 (by omega)
        · have := countActionsSince_mono rl.actions a
            (now - 86400) (rl.cooldownEnd a + 1 - 86400) (by omega)
          omega
        · have := countActionsSince_mono rl.actions a
            (now - 3600) (rl.cooldownEnd a + 1 - 3600) (by omega)
          omega
    · exact waitForActionFuel_mono a 2 rl now
        (waitForActionFuel_two rl a now cfg h hact hd hh)

theorem waitForAction_bounded_witness :
    (newRateLimiter (limitsFor cfgRoomy)).limits "connection" = some cfgRoomy ∧
    countActionsSince (newRateLimiter (limitsFor cfgRoomy)).actions "connection"
      (0 - 86400) < cfgRoomy.dailyLimit ∧
    countActionsSince (newRateLimiter (limitsFor cfgRoomy)).actions "connection"
      (0 - 3600) < cfgRoomy.hourlyLimit ∧
    (waitForActionFuel "connection" 3 (newRateLimiter (limitsFor cfgRoomy)) 0).isSome
      = true :=
  ⟨by decide, by decide, by decide,
   (waitForAction_bounded (newRateLimiter (limitsFor cfgRoomy)) "connection" 0 cfgRoomy
     (by decide) (by decide) (by decide)).2⟩
